import Mathlib

/-!
Verification of the dual-backend persistence and session-recovery layer of the
tailor's measurement-book application (source: `src/App.tsx`, `src/types.ts`).

The embedding is shallow:

* a JavaScript object holding the string-valued schema fields of a record is
  modelled as an association list `List (String × String)` (a key that is
  absent models an `undefined` property; property read is `List.lookup`,
  which returns the first binding, and property write rewrites the existing
  binding in place or appends a fresh one, matching JS insertion-order
  semantics);
* the optional numeric property `rowIndex` is kept in a separate field of the
  record structure, exactly as the code keeps it out of `SHEET_FIELD_ORDER`;
* a spreadsheet cell is `Option String` (`none` models a missing / `undefined`
  cell of the raw `any[]` row);
* the pieces of component state touched by the persistence layer
  (`measurements`, `isSignedIn`, `accessToken`, `userSpreadsheetId`,
  `actionRequiresAuth`, `gapiInited`, token-client readiness) together with
  the relevant `localStorage` keys form `AppState`; the React `set...` calls
  are sequenced as ordinary state updates.  `isLoading` and the Thai
  status-message strings (whose constant table `constants.ts` is not among
  the sources) are not tracked: no claim depends on them;
* the Google Sheets / Drive backend is an oracle `Backend` supplying the
  response of each successive remote call, and every outgoing remote request
  or interactive token request is recorded in an explicit `Effect` trace;
* the recursive `loadMeasurementsFromSheet` is embedded with an explicit fuel
  parameter; a result of `none` means the recursion was still running after
  consuming all the fuel (one unit per read attempt);
* `Date` values: the code only ever compares and subtracts the millisecond
  values of dates obtained from `""` or ISO `YYYY-MM-DD` strings, so date
  strings are mapped to day-precision millisecond values shifted by a fixed
  constant (a constant shift preserves every equality, order and difference
  the code computes).  A comparator result that would be `NaN` in JS is
  mapped to `0`, following the ECMAScript `SortCompare` clause that coerces
  a `NaN` comparator result to `+0`.
-/

namespace TailorApp

/-! Section: Data model (`types.ts`) -/

/-- The canonical field-order schema `SHEET_FIELD_ORDER` from `types.ts`
(36 keys; `rowIndex` is deliberately not part of it). -/
def SHEET_FIELD_ORDER : List String :=
  ["id", "name", "nickname", "address", "phone", "measurementDate", "unit",
   "frontLength", "backLength", "sideLength", "shoulder", "frontShoulderWidth",
   "backShoulderWidth", "neckCircumference", "armhole", "chestCircumference",
   "bustDistance", "bustHeight", "waistCircumference", "upperHipCircumference",
   "hipCircumference", "skirtLength", "sleeveLength", "sleeveWidthAtElbow",
   "shirtLengthToWrist", "overallLength", "sittingWaist", "waistToKnee",
   "kneeCircumference", "thighCircumference", "calfCircumference",
   "waistToAnkleLength", "ankleCircumference", "crotchDepth",
   "notes", "fabricSampleDescription"]

/-- A `CustomerMeasurement` object: the string-valued properties as an
association list (an absent key models an `undefined` property) plus the
optional `rowIndex` property from `types.ts`. -/
structure CustomerMeasurement where
  fields : List (String × String)
  rowIndex : Option Nat
deriving DecidableEq, Repr

/-- Property read `m[key]` (`none` = `undefined`). -/
def getField (m : CustomerMeasurement) (k : String) : Option String :=
  m.fields.lookup k

/-- Property read collapsing `undefined` to `""`, i.e. `m[key] ?? ''`
(and also `m[key] || ''`, since on string values both agree). -/
def jsGet (m : CustomerMeasurement) (k : String) : String :=
  (getField m k).getD ""

/-- The default value of each schema field in `initialMeasurementState`
(`types.ts`): `'inch'` for `unit`, `''` for everything else. -/
def initialFieldValue (k : String) : String :=
  if k == "unit" then "inch" else ""

/-- Model of `initialMeasurementState` from `types.ts`: every schema field present with
its default, no `rowIndex`. -/
def initialMeasurementState : CustomerMeasurement :=
  ⟨SHEET_FIELD_ORDER.map (fun k => (k, initialFieldValue k)), none⟩

/-- JS truthiness of a possibly-`undefined` string (`undefined` and `''` are
falsy). -/
def jsTruthy : Option String → Bool
  | none => false
  | some s => s != ""

/-- JS truthiness of a possibly-`undefined` number (`undefined` and `0` are
falsy). -/
def jsTruthyNat : Option Nat → Bool
  | none => false
  | some n => n != 0

/-! Section: Row codec (`App.tsx` lines 23-37) -/

/-- The loop body of `rowToMeasurement`: walk `SHEET_FIELD_ORDER` with its
index and collect `(key, row[index])` for every cell that is not `undefined`,
skipping the key `rowIndex` (which in fact never occurs in the schema). -/
def decodedPairs (row : List (Option String)) : List (String × String) :=
  SHEET_FIELD_ORDER.enum.filterMap (fun p =>
    match row.getD p.1 none with
    | some v => if p.2 == "rowIndex" then none else some (p.2, v)
    | none => none)

/-- Model of `rowToMeasurement` (`App.tsx`): spread `initialMeasurementState`, then the
decoded cells, then force `id` to `measurement.id || ''`, and attach the
externally supplied 1-based row position as `rowIndex`. -/
def rowToMeasurement (row : List (Option String)) (rowIndex : Nat) :
    CustomerMeasurement :=
  let dec := decodedPairs row
  let idVal : String := (dec.lookup "id").getD ""
  ⟨SHEET_FIELD_ORDER.map (fun k =>
      (k, if k == "id" then idVal else (dec.lookup k).getD (initialFieldValue k))),
   some rowIndex⟩

/-- Model of `measurementToRow` (`App.tsx`): project every schema field in order,
mapping an `undefined` field to `''`. -/
def measurementToRow (m : CustomerMeasurement) : List String :=
  SHEET_FIELD_ORDER.map (fun k => (getField m k).getD "")

/-- Position of a schema key in `SHEET_FIELD_ORDER`. -/
def keyIndex (k : String) : Nat :=
  SHEET_FIELD_ORDER.indexOf k

/-! Section: Dates

The code derives today's date with `new Date().toISOString().split('T')[0]`
(UTC calendar date of the current epoch-millisecond clock) and turns stored
`YYYY-MM-DD` strings back into millisecond values for comparison. -/

/-- Milliseconds per day. -/
def dayMs : Nat := 86400000

/-- UTC calendar date `(year, month, day)` of a day count since 1970-01-01
(the classic era-based civil-from-days algorithm). -/
def civilFromDays (z : Nat) : Nat × Nat × Nat :=
  let z' := z + 719468
  let era := z' / 146097
  let doe := z' % 146097
  let yoe := (doe - doe / 1460 + doe / 36524 - doe / 146096) / 365
  let y := yoe + era * 400
  let doy := doe - (365 * yoe + yoe / 4 - yoe / 100)
  let mp := (5 * doy + 2) / 153
  let d := doy - (153 * mp + 2) / 5 + 1
  let m := if mp < 10 then mp + 3 else mp - 9
  (if m ≤ 2 then y + 1 else y, m, d)

/-- Left-pad a numeral with zeros to the given width. -/
def padZero (width : Nat) (s : String) : String :=
  String.mk (List.replicate (width - s.length) (Char.ofNat 48)) ++ s

/-- Format a civil date as ISO `YYYY-MM-DD`. -/
def isoDateString (y m d : Nat) : String :=
  padZero 4 (toString y) ++ "-" ++ padZero 2 (toString m) ++ "-" ++
    padZero 2 (toString d)

/-- Model of `new Date(nowMs).toISOString().split('T')[0]`: the UTC calendar date of
the clock value, as `YYYY-MM-DD`. -/
def todayIso (nowMs : Nat) : String :=
  let c := civilFromDays (nowMs / dayMs)
  isoDateString c.1 c.2.1 c.2.2

/-- Day count of a civil date on a scale shifted by a fixed constant (the
shift keeps every value a `Nat`; all uses of date values in the code are
equalities, orderings and differences, which the shift preserves). -/
def daysShifted (y m d : Nat) : Nat :=
  let yy := y + 400
  let y' := if m ≤ 2 then yy - 1 else yy
  let era := y' / 400
  let yoe := y' % 400
  let mp := if m > 2 then m - 3 else m + 9
  let doy := (153 * mp + 2) / 5 + (d - 1)
  let doe := yoe * 365 + yoe / 4 - yoe / 100 + doy
  era * 146097 + doe

/-- The shifted day value of the JS epoch (1970-01-01), i.e. of `new Date(0)`. -/
def EPOCH_DAYS : Nat := daysShifted 1970 1 1

/-- Whether a year is a leap year. -/
def isLeapYear (y : Nat) : Bool :=
  (y % 4 == 0 && y % 100 != 0) || y % 400 == 0

/-- Number of days in a month. -/
def daysInMonth (y m : Nat) : Nat :=
  if m == 2 then (if isLeapYear y then 29 else 28)
  else if m == 4 || m == 6 || m == 9 || m == 11 then 30 else 31

/-- Numeric value of an all-digit character list. -/
def natOfDigits (l : List Char) : Nat :=
  l.foldl (fun n c => 10 * n + (c.toNat - 48)) 0

/-- Model of `String.prototype.split` with a one-character separator, on the character
list. -/
def splitOnChar (c : Char) : List Char → List (List Char)
  | [] => [[]]
  | x :: xs =>
    let r := splitOnChar c xs
    if x == c then [] :: r
    else
      match r with
      | [] => [[x]]
      | y :: ys => (x :: y) :: ys

/-- Model of `new Date(str).getTime()` for a calendar-date string, on the shifted
millisecond scale: a strict ISO `YYYY-MM-DD` date parses to UTC midnight of
that day, anything else is `NaN` (modelled as `none`). -/
def parseDateMs (str : String) : Option Nat :=
  match splitOnChar (Char.ofNat 45) str.data with
  | [ys, ms, ds] =>
    if ys.length == 4 && ms.length == 2 && ds.length == 2
        && ys.all Char.isDigit && ms.all Char.isDigit && ds.all Char.isDigit then
      let y := natOfDigits ys
      let m := natOfDigits ms
      let d := natOfDigits ds
      if 1 ≤ m && m ≤ 12 && 1 ≤ d && d ≤ daysInMonth y m then
        some (dayMs * daysShifted y m d)
      else none
    else none
  | _ => none

/-- Model of `new Date(s || 0).getTime()` as used by both sort comparators: the empty
string (or an absent field) falls back to `new Date(0)` = the epoch, other
strings are parsed as dates (`none` = `NaN`). -/
def dateValue (str : String) : Option Nat :=
  if str == "" then some (dayMs * EPOCH_DAYS) else parseDateMs str

/-! Section: Save-time normalization (`handleSave`, `App.tsx` lines 492-496) -/

/-- JS property write `obj[k] = v` on the association-list object model:
overwrite an existing binding in place, or append a fresh one. -/
def setField (m : CustomerMeasurement) (k v : String) : CustomerMeasurement :=
  if (m.fields.lookup k).isSome then
    ⟨m.fields.map (fun p => if p.1 == k then (p.1, v) else p), m.rowIndex⟩
  else
    ⟨m.fields ++ [(k, v)], m.rowIndex⟩

/-- The normalization step of `handleSave`: default a falsy `measurementDate`
to today's ISO date and a falsy `id` to `Date.now().toString()`.  `nowMs` is
the environment clock (epoch milliseconds). -/
def normalizeForSave (nowMs : Nat) (m : CustomerMeasurement) :
    CustomerMeasurement :=
  let m₁ := if jsGet m "measurementDate" == "" then
      setField m "measurementDate" (todayIso nowMs)
    else m
  if jsGet m₁ "id" == "" then setField m₁ "id" (toString nowMs) else m₁

/-! Section: Sort comparators (`App.tsx` lines 509 and 615-621) -/

/-- The value `a.measurementDate` read by the comparators (`""` when the
property is `undefined`; `'' || 0` and `undefined || 0` both fall back to
`new Date(0)` inside `dateValue`). -/
def getDateStr (m : CustomerMeasurement) : String :=
  jsGet m "measurementDate"

/-- Strict inequality `x !== y` of two JS numbers that may be `NaN`
(`NaN !== anything`, including `NaN !== NaN`, is true). -/
def jsNeqNum (a b : Option Nat) : Bool :=
  match a, b with
  | some x, some y => x != y
  | _, _ => true

/-- JS subtraction `b - a` of two numbers that may be `NaN`; a `NaN` result is
mapped to `0` per the ECMAScript `SortCompare` coercion of `NaN` comparator
results. -/
def jsSubNum (b a : Option Nat) : Int :=
  match b, a with
  | some x, some y => (x : Int) - (y : Int)
  | _, _ => 0

/-- Tie-break of `sortedMeasurements`: ascending `rowIndex` when both are
truthy and distinct, otherwise ascending `id` string comparison. -/
def tieBreakCompare (a b : CustomerMeasurement) : Int :=
  if jsTruthyNat a.rowIndex && jsTruthyNat b.rowIndex
      && (a.rowIndex != b.rowIndex) then
    (if a.rowIndex.getD 0 < b.rowIndex.getD 0 then -1 else 1)
  else (if jsGet a "id" < jsGet b "id" then -1 else 1)

/-- The comparator of `sortedMeasurements` (`App.tsx` lines 615-621):
`if (dateB !== dateA) return dateB - dateA;` then the tie-break. -/
def sortCompare (a b : CustomerMeasurement) : Int :=
  if jsNeqNum (dateValue (getDateStr b)) (dateValue (getDateStr a)) then
    jsSubNum (dateValue (getDateStr b)) (dateValue (getDateStr a))
  else tieBreakCompare a b

/-- The displayed collection: the in-memory collection sorted with
`sortCompare`.  `Array.prototype.sort` is required stable, so it is modelled
by a stable sort (insertion sort, which is stable and agrees with any other
stable sort on a consistent comparator). -/
def sortedMeasurements (ms : List CustomerMeasurement) :
    List CustomerMeasurement :=
  List.insertionSort (fun a b => sortCompare a b ≤ 0) ms

/-- The date-only comparator used by the local save path (`App.tsx` line 509). -/
def dateOnlyCompare (a b : CustomerMeasurement) : Int :=
  jsSubNum (dateValue (getDateStr b)) (dateValue (getDateStr a))

/-- The in-place stable sort of the local save path. -/
def jsSortByDate (ms : List CustomerMeasurement) : List CustomerMeasurement :=
  List.insertionSort (fun a b => dateOnlyCompare a b ≤ 0) ms

/-! Section: Controller state, local store, effects, backend oracle -/

/-- The continuation stored in `actionRequiresAuth` (the code stores the
closure `() => handleSave(finalMeasurement)` resp. `() => handleDelete(id)`;
only these two shapes are ever stored). -/
inductive PendingAction
  | saveAction (m : CustomerMeasurement)
  | deleteAction (id : String)
deriving DecidableEq, Repr

/-- The durable browser-local store: the serialized measurement blob under
`LOCAL_STORAGE_KEY` (with a flag modelling a blob that fails `JSON.parse` and
a flag modelling a failing `setItem`), and the session triple under
`LS_ACCESS_TOKEN` / `LS_TOKEN_EXPIRY` / `LS_IS_SIGNED_IN`. -/
structure LocalStore where
  blob : Option (List CustomerMeasurement)
  blobCorrupt : Bool
  saveFails : Bool
  lsToken : Option String
  lsExpiry : Option String
  lsSignedIn : Option String
deriving DecidableEq, Repr

/-- Defensive merge `{ ...initialMeasurementState, ...m }` applied to every
record loaded from the blob: schema keys get their stored value or the
default, extra keys of `m` are kept after them, `rowIndex` is kept. -/
def mergeWithInitial (m : CustomerMeasurement) : CustomerMeasurement :=
  ⟨SHEET_FIELD_ORDER.map (fun k => (k, (getField m k).getD (initialFieldValue k)))
      ++ m.fields.filter (fun p => !(SHEET_FIELD_ORDER.contains p.1)),
   m.rowIndex⟩

/-- Model of `loadMeasurementsFromLocalStorage`'s data part: absent blob gives `[]`, a
blob that fails to parse gives `[]` (the catch branch), otherwise each stored
record is defensively merged. -/
def localLoad (st : LocalStore) : List CustomerMeasurement :=
  match st.blob with
  | none => []
  | some parsed => if st.blobCorrupt then [] else parsed.map mergeWithInitial

/-- Model of `saveMeasurementsToLocalStorage`: overwrite the blob; a failing `setItem`
is caught and leaves the store unchanged. -/
def localSave (st : LocalStore) (ms : List CustomerMeasurement) : LocalStore :=
  if st.saveFails then st else { st with blob := some ms }

/-- The effects a controller operation can emit: remote API requests and
interactive token requests. -/
inductive Effect
  | readSheet
  | sheetMetaGet
  | writeHeaderRow
  | appendRowCall (row : List String)
  | updateRowCall (rowIndex : Nat) (row : List String)
  | deleteRowCall (startIndex endIndex : Nat)
  | revokeToken
  | tokenRequest
deriving DecidableEq, Repr

/-- The error shape the catch blocks inspect: `error.result?.error?.code`,
`error.result?.error?.status`, and the resolved message
(`error.result?.error?.message || error.message || 'Unknown error'`). -/
structure RemoteError where
  code : Option Nat
  status : Option String
  message : String
deriving DecidableEq, Repr

/-- Result of one `spreadsheets.values.get` call: the `values` array (an
absent `values` is the empty list) or a thrown error. -/
inductive ReadResult
  | ok (values : List (List (Option String)))
  | err (e : RemoteError)
deriving DecidableEq, Repr

/-- The backend oracle: the `n`-th read response, the outcome of the `n`-th
`setupSheetHeaders` call chain (`none` = success), the resolved numeric sheet
id, and the outcomes of delete and save calls. -/
structure Backend where
  reads : Nat → ReadResult
  setupErr : Nat → Option RemoteError
  sheetNumericId : Option Nat
  deleteErr : Option RemoteError
  saveErr : Option RemoteError
  appendRange : Option String

/-- The component state relevant to the persistence layer. -/
structure AppState where
  measurements : List CustomerMeasurement
  isSignedIn : Bool
  accessToken : Option String
  userSpreadsheetId : Option String
  actionRequiresAuth : Option PendingAction
  gapiInited : Bool
  tokenClientReady : Bool
  store : LocalStore
deriving DecidableEq, Repr

/-- Substring test used for the not-found message checks (a pattern occurs in
`s` iff splitting on it produces at least two parts). -/
def strContains (s pat : String) : Bool :=
  decide (2 ≤ (s.splitOn pat).length)

/-- The authentication-failure test shared by `setupSheetHeaders`,
`handleSave` and `handleDelete`:
`code === 401 || code === 403 || status === 'UNAUTHENTICATED'`. -/
def isAuthStatus (e : RemoteError) : Bool :=
  e.code == some 401 || e.code == some 403 || e.status == some "UNAUTHENTICATED"

/-- The first catch branch of `loadMeasurementsFromSheet` (line 478): the
authentication test extended with `status === 'PERMISSION_DENIED'`. -/
def isLoadAuthBranch (e : RemoteError) : Bool :=
  e.code == some 401 || e.code == some 403 || e.status == some "UNAUTHENTICATED"
    || e.status == some "PERMISSION_DENIED"

/-- The not-found branch of `loadMeasurementsFromSheet` (line 480). -/
def isLoadNotFoundBranch (e : RemoteError) : Bool :=
  e.status == some "NOT_FOUND"
    || strContains e.message.toLower "requested entity was not found"
    || (e.code == some 400 && strContains e.message.toLower "unable to parse range")

/-! Section: Controller operations (`App.tsx`) -/

/-- Model of `loadMeasurementsFromLocalStorage` as a state update (status message and
loading flag untracked). -/
def loadFromLocalStorage (s : AppState) : AppState :=
  { s with measurements := localLoad s.store }

/-- Model of `handleSignoutLogic` (`App.tsx` lines 138-156): remove the three session
keys, clear the in-memory session (token, signed-in flag, spreadsheet id,
pending continuation), then reload from local storage.  The
`isAutoSignoutDueToError` flag only selects a status message and is untracked. -/
def handleSignoutLogic (s : AppState) : AppState :=
  loadFromLocalStorage
    { s with
        store := { s.store with lsToken := none, lsExpiry := none, lsSignedIn := none },
        accessToken := none, isSignedIn := false,
        userSpreadsheetId := none, actionRequiresAuth := none }

/-- Model of `handleSignoutClick`: best-effort revocation of a truthy token, then
`handleSignoutLogic` on either path. -/
def handleSignoutClick (s : AppState) : AppState × List Effect :=
  if jsTruthy s.accessToken then (handleSignoutLogic s, [Effect.revokeToken])
  else (handleSignoutLogic s, [])

/-- Model of `handleAuthClick`: no-op without a token client; otherwise optionally
store a pending continuation and request an access token interactively. -/
def handleAuthClick (cb : Option PendingAction) (s : AppState) :
    AppState × List Effect :=
  if !s.tokenClientReady then (s, [])
  else
    match cb with
    | some c => ({ s with actionRequiresAuth := some c }, [Effect.tokenRequest])
    | none => (s, [Effect.tokenRequest])

/-- Model of `parseInt(storedExpiry, 10)` on the stored decimal numeral: the leading
digit run, `none` for `NaN`. -/
def parseLeadingNat (s : String) : Option Nat :=
  let ds := s.data.takeWhile (fun c => c.isDigit)
  if ds.isEmpty then none
  else some (ds.foldl (fun n c => 10 * n + (c.toNat - 48)) 0)

/-- The comparison `now < expiryTime` where `expiryTime` may be `NaN` (a
comparison against `NaN` is false). -/
def jsLtNaN (now : Nat) (o : Option Nat) : Bool :=
  match o with
  | some e => decide (now < e)
  | none => false

/-- The startup session-restore block (`App.tsx` lines 278-297): adopt a
stored, signed-in-marked, unexpired token silently; purge the three keys when
the stored triple is marked signed-in but fails the `now < expiry` test (a
`NaN` expiry also fails it and is purged); leave anything else untouched. -/
def restoreSession (now : Nat) (s : AppState) : AppState :=
  if jsTruthy s.store.lsToken && jsTruthy s.store.lsExpiry
      && (s.store.lsSignedIn == some "true") then
    if jsLtNaN now (parseLeadingNat (s.store.lsExpiry.getD "")) then
      { s with accessToken := s.store.lsToken, isSignedIn := true }
    else
      { s with store :=
          { s.store with lsToken := none, lsExpiry := none, lsSignedIn := none } }
  else s

/-- Model of `setupSheetHeaders` (`App.tsx` lines 419-445): guarded no-op when token /
GAPI / spreadsheet id are missing; otherwise a metadata read followed by the
unconditional header write (tab creation folded into the success trace); an
authentication error inside triggers `handleSignoutClick(true)`, any other
error only sets a message. -/
def setupSheetHeaders (b : Backend) (sIdx : Nat) (tok sid : Option String)
    (s : AppState) : AppState × List Effect :=
  if !(jsTruthy tok) || !s.gapiInited || !(jsTruthy sid) then (s, [])
  else
    match b.setupErr sIdx with
    | none => (s, [Effect.sheetMetaGet, Effect.writeHeaderRow])
    | some e =>
      if isAuthStatus e then
        let r := handleSignoutClick s
        (r.1, Effect.sheetMetaGet :: r.2)
      else (s, [Effect.sheetMetaGet])

/-- The canonical header row, as returned by a well-formed sheet
(`JSON.stringify(headerRow) === JSON.stringify(SHEET_FIELD_ORDER)` on
string-valued cells is exactly this comparison). -/
def canonicalHeader : List (Option String) := SHEET_FIELD_ORDER.map some

/-- Model of `values.slice(1).map((row, i) => rowToMeasurement(row, i + 2)).filter(m => m.id)`. -/
def decodeLoadedRows (rows : List (List (Option String))) :
    List CustomerMeasurement :=
  (rows.enum.map (fun p => rowToMeasurement p.2 (p.1 + 2))).filter
    (fun m => jsTruthy (getField m "id"))

/-- Model of `loadMeasurementsFromSheet` (`App.tsx` lines 448-489) with explicit fuel.
Each read attempt consumes one unit of fuel; `none` means the recursion was
still running when the fuel ran out.  `rIdx` / `sIdx` index the backend's
successive read / setup responses. -/
def loadFromSheet (b : Backend) : Nat → Nat → Nat → Option String →
    Option String → AppState → Option (AppState × List Effect)
  | 0, _, _, tok, sid, s =>
    if !(jsTruthy tok) || !s.gapiInited || !(jsTruthy sid) then some (s, [])
    else none
  | fuel + 1, rIdx, sIdx, tok, sid, s =>
    if !(jsTruthy tok) || !s.gapiInited || !(jsTruthy sid) then some (s, [])
    else
      match b.reads rIdx with
      | ReadResult.ok values =>
        match values with
        | [] =>
          let s₁ := { s with measurements := [] }
          let r := setupSheetHeaders b sIdx tok sid s₁
          some (r.1, Effect.readSheet :: r.2)
        | headerRow :: dataRows =>
          if headerRow != canonicalHeader then
            let r := setupSheetHeaders b sIdx tok sid s
            match loadFromSheet b fuel (rIdx + 1) (sIdx + 1) tok sid r.1 with
            | none => none
            | some ret => some (ret.1, Effect.readSheet :: (r.2 ++ ret.2))
          else
            some ({ s with measurements := decodeLoadedRows dataRows },
              [Effect.readSheet])
      | ReadResult.err e =>
        if isLoadAuthBranch e then
          let r := handleSignoutClick s
          some (r.1, Effect.readSheet :: r.2)
        else if isLoadNotFoundBranch e then
          let r := setupSheetHeaders b sIdx tok sid s
          match loadFromSheet b fuel (rIdx + 1) (sIdx + 1) tok sid r.1 with
          | none => none
          | some ret => some (ret.1, Effect.readSheet :: (r.2 ++ ret.2))
        else some (s, [Effect.readSheet])

/-- The regex `/!A(\d+):/` applied to `updates?.updatedRange` of an append
response (first `!A` occurrence, digits, then a colon). -/
def parseAppendRange (r : Option String) : Option Nat :=
  match r with
  | none => none
  | some str =>
    match str.splitOn "!A" with
    | _ :: rest :: _ =>
      let digits := rest.data.takeWhile (fun c => c.isDigit)
      if digits.isEmpty then none
      else
        match rest.data.drop digits.length with
        | c :: _ =>
          if c == Char.ofNat 58 then
            some (digits.foldl (fun n ch => 10 * n + (ch.toNat - 48)) 0)
          else none
        | [] => none
    | _ => none

/-- Model of `m.id === m'.id` (strict equality of possibly-`undefined` strings). -/
def sameId (m m' : CustomerMeasurement) : Bool :=
  getField m "id" == getField m' "id"

/-- Model of `handleSave` (`App.tsx` lines 492-550).  The cloud-unusable branch either
queues the save as the pending continuation and requests a token (signed out
with a ready token client), or writes through the local path: replace the
record with the same `id` in place or prepend, re-sort by date, persist, and
publish.  The cloud branch issues the update / append call and then reloads
the whole collection from the sheet (the extracted append position only feeds
the reload, which supersedes it). -/
def handleSave (b : Backend) (fuel nowMs : Nat) (mIn : CustomerMeasurement)
    (s : AppState) : Option (AppState × List Effect) :=
  let finalM := normalizeForSave nowMs mIn
  if !s.isSignedIn || !(jsTruthy s.accessToken) || !s.gapiInited
      || !(jsTruthy s.userSpreadsheetId) then
    if !s.isSignedIn && s.tokenClientReady then
      some (handleAuthClick none
        { s with actionRequiresAuth := some (PendingAction.saveAction finalM) })
    else
      let prev := s.measurements
      let updated :=
        if (prev.findIdx? (fun m => sameId m finalM)).isSome then
          prev.map (fun m => if sameId m finalM then finalM else m)
        else finalM :: prev
      let sortedL := jsSortByDate updated
      some ({ s with measurements := sortedL, store := localSave s.store sortedL },
        [])
  else
    let rowData := measurementToRow finalM
    let isUpdate := jsTruthyNat finalM.rowIndex && jsTruthy (getField finalM "id")
    let callEff := if isUpdate then
        Effect.updateRowCall (finalM.rowIndex.getD 0) rowData
      else Effect.appendRowCall rowData
    match b.saveErr with
    | some e =>
      if isAuthStatus e then
        let r := handleSignoutClick s
        some (r.1, callEff :: r.2)
      else some (s, [callEff])
    | none =>
      match loadFromSheet b fuel 0 0 s.accessToken s.userSpreadsheetId s with
      | none => none
      | some ret => some (ret.1, callEff :: ret.2)

/-- Model of `handleDelete` (`App.tsx` lines 563-602).  A missing record or a declined
confirm dialog aborts.  When the backend is unusable *or the record has no
truthy `rowIndex`*: either queue the delete and request a token (signed out
with a ready token client), or filter the collection by `id`, persist the
filtered collection locally and publish it.  The remote path resolves the
numeric sheet id, issues the structural row deletion, then reloads. -/
def handleDelete (b : Backend) (fuel : Nat) (idv : String) (confirmOk : Bool)
    (s : AppState) : Option (AppState × List Effect) :=
  match s.measurements.find? (fun m => getField m "id" == some idv) with
  | none => some (s, [])
  | some mDel =>
    if !confirmOk then some (s, [])
    else if !s.isSignedIn || !(jsTruthy s.accessToken) || !s.gapiInited
        || !(jsTruthy s.userSpreadsheetId) || !(jsTruthyNat mDel.rowIndex) then
      if !s.isSignedIn && s.tokenClientReady then
        some (handleAuthClick none
          { s with actionRequiresAuth := some (PendingAction.deleteAction idv) })
      else
        let updated := s.measurements.filter (fun m => !(getField m "id" == some idv))
        some ({ s with store := localSave s.store updated, measurements := updated },
          [])
    else
      match b.sheetNumericId with
      | none => some (s, [Effect.sheetMetaGet])
      | some _ =>
        let ri := mDel.rowIndex.getD 0
        match b.deleteErr with
        | some e =>
          if isAuthStatus e then
            let r := handleSignoutClick s
            some (r.1, Effect.sheetMetaGet :: Effect.deleteRowCall (ri - 1) ri :: r.2)
          else some (s, [Effect.sheetMetaGet, Effect.deleteRowCall (ri - 1) ri])
        | none =>
          match loadFromSheet b fuel 0 0 s.accessToken s.userSpreadsheetId s with
          | none => none
          | some ret =>
            some (ret.1, Effect.sheetMetaGet :: Effect.deleteRowCall (ri - 1) ri :: ret.2)

/-! Section: Concrete instances used by counterexamples and witnesses -/

/-- A signed-in state with every remote precondition satisfied. -/
def exampleSignedInState : AppState :=
  ⟨[], true, some "tok", some "sheetId", none, true, true,
   ⟨none, false, false, some "tok", some "99999", some "true"⟩⟩

/-- A backend whose sheet returns a mismatched header row on every read and
whose header repairs always report success (the repair simply never sticks). -/
def badHeaderBackend : Backend :=
  ⟨fun _ => ReadResult.ok [[some "wrong"]], fun _ => none, none, none, none, none⟩

/-- The permission-denied error shape (`403` / `PERMISSION_DENIED`). -/
def permissionDeniedError : RemoteError :=
  ⟨some 403, some "PERMISSION_DENIED", "The caller does not have permission"⟩

/-- A backend whose reads always fail with `permissionDeniedError`. -/
def permissionDeniedBackend : Backend :=
  ⟨fun _ => ReadResult.err permissionDeniedError, fun _ => none, none, none, none, none⟩

/-- A `401 UNAUTHENTICATED` error. -/
def authError401 : RemoteError :=
  ⟨some 401, some "UNAUTHENTICATED", "Invalid Credentials"⟩

/-- A backend whose reads always fail with `authError401`. -/
def authFailBackend : Backend :=
  ⟨fun _ => ReadResult.err authError401, fun _ => none, none, none, none, none⟩

/-- A stored session triple whose signed-in flag is `'false'` and whose expiry
lies in the past. -/
def staleFalseStore : LocalStore :=
  ⟨none, false, false, some "tok", some "5", some "false"⟩

/-- The startup state holding `staleFalseStore`. -/
def staleFalseState : AppState :=
  ⟨[], false, none, none, none, false, false, staleFalseStore⟩

/-- Record `A{date: 2024-01-02, rowIndex: 5}` of the sort scenario. -/
def recordA : CustomerMeasurement :=
  ⟨[("id", "A"), ("measurementDate", "2024-01-02")], some 5⟩

/-- Record `B{date: 2024-01-02, rowIndex: 3}` of the sort scenario. -/
def recordB : CustomerMeasurement :=
  ⟨[("id", "B"), ("measurementDate", "2024-01-02")], some 3⟩

/-- Record `C{date: 2024-01-03}` of the sort scenario. -/
def recordC : CustomerMeasurement :=
  ⟨[("id", "C"), ("measurementDate", "2024-01-03")], none⟩

/-! Section: theorems -/

/-! Section: Generic association-list lemmas -/

theorem lookup_cons_ne {β : Type} (k a : String) (b : β) (l : List (String × β))
    (h : (k == a) = false) : List.lookup k ((a, b) :: l) = List.lookup k l := by
  simp only [List.lookup, h]

theorem lookup_cons_hit {β : Type} (k a : String) (b : β) (l : List (String × β))
    (h : (k == a) = true) : List.lookup k ((a, b) :: l) = some b := by
  simp only [List.lookup, h]

theorem lookup_map_key (f : String → String) (l : List String) (k : String)
    (h : k ∈ l) :
    (l.map (fun x => (x, f x))).lookup k = some (f k) := by
  induction l with
  | nil => cases h
  | cons a t ih =>
    by_cases hk : k = a
    · subst hk
      simp [List.lookup]
    · have hne : (k == a) = false := by simp [hk]
      have hmem : k ∈ t := by
        rcases List.mem_cons.mp h with h1 | h1
        · exact absurd h1 hk
        · exact h1
      simp [List.lookup, hne, ih hmem]

theorem beq_false_of_not_beq {a b : String} (h : ¬((a == b) = true)) :
    (a == b) = false := by
  cases hb : (a == b) with
  | true => exact absurd hb h
  | false => rfl

theorem lookup_map_overwrite {β : Type} (k : String) (v : β) :
    ∀ l : List (String × β), (List.lookup k l).isSome = true →
      List.lookup k (l.map (fun p => if p.1 == k then (p.1, v) else p)) = some v := by
  intro l
  induction l with
  | nil => intro h; simp [List.lookup] at h
  | cons p t ih =>
    intro h
    by_cases hpk : (k == p.1) = true
    · have hp1 : (p.1 == k) = true := beq_iff_eq.mpr (beq_iff_eq.mp hpk).symm
      rw [List.map_cons, if_pos hp1]
      exact lookup_cons_hit k p.1 v _ hpk
    · have hpb : (k == p.1) = false := beq_false_of_not_beq hpk
      have hp1 : ¬((p.1 == k) = true) := fun hc =>
        hpk (beq_iff_eq.mpr (beq_iff_eq.mp hc).symm)
      have ht : (List.lookup k t).isSome = true := by
        have := h
        obtain ⟨a, bb⟩ := p
        rwa [lookup_cons_ne k a bb t hpb] at this
      rw [List.map_cons, if_neg hp1]
      obtain ⟨a, bb⟩ := p
      exact (lookup_cons_ne k a bb _ hpb).trans (ih ht)

theorem lookup_append_new {β : Type} (k : String) (v : β) :
    ∀ l : List (String × β), List.lookup k l = none →
      List.lookup k (l ++ [(k, v)]) = some v := by
  intro l
  induction l with
  | nil =>
    intro _
    exact lookup_cons_hit k k v [] (beq_iff_eq.mpr rfl)
  | cons p t ih =>
    intro h
    obtain ⟨a, bb⟩ := p
    cases hb : (k == a) with
    | true =>
      rw [lookup_cons_hit k a bb t hb] at h
      cases h
    | false =>
      rw [lookup_cons_ne k a bb t hb] at h
      rw [List.cons_append]
      exact (lookup_cons_ne k a bb _ hb).trans (ih h)

theorem lookup_map_overwrite_other {β : Type} (k k' : String) (v : β)
    (hne : k' ≠ k) :
    ∀ l : List (String × β),
      List.lookup k' (l.map (fun p => if p.1 == k then (p.1, v) else p))
        = List.lookup k' l := by
  intro l
  induction l with
  | nil => rfl
  | cons p t ih =>
    obtain ⟨a, bb⟩ := p
    by_cases hp1 : ((a, bb).1 == k) = true
    · have hak : a = k := beq_iff_eq.mp hp1
      have hkb : (k' == a) = false := beq_eq_false_iff_ne.mpr (hak ▸ hne)
      rw [List.map_cons, if_pos hp1]
      rw [lookup_cons_ne k' a v _ hkb, lookup_cons_ne k' a bb _ hkb]
      exact ih
    · rw [List.map_cons, if_neg hp1]
      cases hb : (k' == a) with
      | true =>
        rw [lookup_cons_hit k' a bb _ hb, lookup_cons_hit k' a bb _ hb]
      | false =>
        rw [lookup_cons_ne k' a bb _ hb, lookup_cons_ne k' a bb _ hb]
        exact ih

theorem lookup_append_other {β : Type} (k k' : String) (v : β) (hne : k' ≠ k) :
    ∀ l : List (String × β),
      List.lookup k' (l ++ [(k, v)]) = List.lookup k' l := by
  intro l
  induction l with
  | nil =>
    rw [List.nil_append]
    exact lookup_cons_ne k' k v [] (beq_eq_false_iff_ne.mpr hne)
  | cons p t ih =>
    obtain ⟨a, bb⟩ := p
    rw [List.cons_append]
    cases hb : (k' == a) with
    | true => rw [lookup_cons_hit k' a bb _ hb, lookup_cons_hit k' a bb _ hb]
    | false =>
      rw [lookup_cons_ne k' a bb _ hb, lookup_cons_ne k' a bb _ hb]
      exact ih

theorem lookup_setField_self (m : CustomerMeasurement) (k v : String) :
    (setField m k v).fields.lookup k = some v := by
  unfold setField
  by_cases h : (m.fields.lookup k).isSome
  · simp only [h, if_true]
    exact lookup_map_overwrite k v m.fields h
  · simp only [h, if_false]
    have hnone : m.fields.lookup k = none := by
      cases hl : m.fields.lookup k with
      | none => rfl
      | some w => rw [hl] at h; simp at h
    exact lookup_append_new k v m.fields hnone

theorem lookup_setField_other (m : CustomerMeasurement) (k v k' : String)
    (h : k' ≠ k) : (setField m k v).fields.lookup k' = m.fields.lookup k' := by
  unfold setField
  by_cases hs : (m.fields.lookup k).isSome
  · simp only [hs, if_true]
    exact lookup_map_overwrite_other k k' v h m.fields
  · simp only [hs, if_false]
    exact lookup_append_other k k' v h m.fields

/-! Section: Row-codec lemmas -/

theorem filterMap_decode_eq (row : List (Option String)) :
    ∀ ps : List (Nat × String), (∀ p ∈ ps, p.2 ≠ "rowIndex") →
      ps.filterMap (fun p =>
        match row.getD p.1 none with
        | some v => if p.2 == "rowIndex" then none else some (p.2, v)
        | none => none)
      = ps.filterMap (fun p => (row.getD p.1 none).map (fun v => (p.2, v))) := by
  intro ps
  induction ps with
  | nil => intro _; rfl
  | cons p t ih =>
    intro h
    have hp : p.2 ≠ "rowIndex" := h p (List.mem_cons_self p t)
    have hpb : (p.2 == "rowIndex") = false := by simp [hp]
    have ht : ∀ q ∈ t, q.2 ≠ "rowIndex" := fun q hq => h q (List.mem_cons_of_mem p hq)
    cases hcell : row.getD p.1 none with
    | none =>
      simp only [List.filterMap_cons, hcell]
      exact ih ht
    | some v =>
      simp only [List.filterMap_cons, hcell]
      rw [if_neg (by simp [hpb]), ih ht]
      rfl

theorem lookup_decode_absent (row : List (Option String)) (k : String) (i : Nat)
    (hcell : row.getD i none = none) :
    ∀ ps : List (Nat × String), (∀ p ∈ ps, p.2 = k → p.1 = i) →
      (ps.filterMap (fun p => (row.getD p.1 none).map (fun v => (p.2, v)))).lookup k
        = none := by
  intro ps
  induction ps with
  | nil => intro _; rfl
  | cons p t ih =>
    intro h
    have ht : ∀ q ∈ t, q.2 = k → q.1 = i := fun q hq => h q (List.mem_cons_of_mem p hq)
    by_cases hpk : p.2 = k
    · have hpi : p.1 = i := h p (List.mem_cons_self p t) hpk
      rw [List.filterMap_cons, hpi, hcell]
      exact ih ht
    · have hpb : (k == p.2) = false :=
        beq_eq_false_iff_ne.mpr (fun hh => hpk hh.symm)
      rw [List.filterMap_cons]
      cases hc : row.getD p.1 none with
      | none => exact ih ht
      | some v => exact (lookup_cons_ne k p.2 v _ hpb).trans (ih ht)

theorem lookup_decode_present (row : List (Option String)) (k : String) (i : Nat)
    (v : String) (hcell : row.getD i none = some v) :
    ∀ ps : List (Nat × String), (∀ p ∈ ps, p.2 = k → p.1 = i) → (i, k) ∈ ps →
      (ps.filterMap (fun p => (row.getD p.1 none).map (fun v => (p.2, v)))).lookup k
        = some v := by
  intro ps
  induction ps with
  | nil => intro _ hmem; cases hmem
  | cons p t ih =>
    intro h hmem
    have ht : ∀ q ∈ t, q.2 = k → q.1 = i := fun q hq => h q (List.mem_cons_of_mem p hq)
    by_cases hpk : p.2 = k
    · have hpi : p.1 = i := h p (List.mem_cons_self p t) hpk
      rw [List.filterMap_cons, hpi, hcell]
      exact lookup_cons_hit k p.2 v _ (beq_iff_eq.mpr hpk.symm)
    · have hpb : (k == p.2) = false :=
        beq_eq_false_iff_ne.mpr (fun hh => hpk hh.symm)
      have hmem' : (i, k) ∈ t := by
        rcases List.mem_cons.mp hmem with h1 | h1
        · exact absurd (congrArg Prod.snd h1).symm hpk
        · exact h1
      rw [List.filterMap_cons]
      cases hc : row.getD p.1 none with
      | none => exact ih ht hmem'
      | some w => exact (lookup_cons_ne k p.2 w _ hpb).trans (ih ht hmem')

theorem schema_no_rowIndex_enum :
    ∀ p ∈ SHEET_FIELD_ORDER.enum, p.2 ≠ "rowIndex" := by decide

theorem keyIndex_spec : ∀ k ∈ SHEET_FIELD_ORDER,
    (keyIndex k, k) ∈ SHEET_FIELD_ORDER.enum ∧
      ∀ p ∈ SHEET_FIELD_ORDER.enum, p.2 = k → p.1 = keyIndex k := by decide

/-- Characterization of the decoder loop: looking up a schema key in the
decoded pairs returns exactly the raw cell sitting at that key's schema
position. -/
theorem decodedPairs_lookup (row : List (Option String)) (k : String)
    (hk : k ∈ SHEET_FIELD_ORDER) :
    (decodedPairs row).lookup k = row.getD (keyIndex k) none := by
  unfold decodedPairs
  rw [filterMap_decode_eq row _ schema_no_rowIndex_enum]
  rcases keyIndex_spec k hk with ⟨hmem, huni⟩
  cases hcell : row.getD (keyIndex k) none with
  | none =>
    exact lookup_decode_absent row k (keyIndex k) hcell _ (fun p hp hpk => huni p hp hpk)
  | some v =>
    exact lookup_decode_present row k (keyIndex k) v hcell _
      (fun p hp hpk => huni p hp hpk) hmem

theorem initialFieldValue_id : initialFieldValue "id" = "" := rfl

/-- Every schema field of a decoded record is defined: it is the raw cell at
the key's position when that cell is present, and the default from
`initialMeasurementState` (with `id` defaulting to `''`) otherwise. -/
theorem getField_rowToMeasurement (row : List (Option String)) (n : Nat)
    (k : String) (hk : k ∈ SHEET_FIELD_ORDER) :
    getField (rowToMeasurement row n) k =
      some ((row.getD (keyIndex k) none).getD (initialFieldValue k)) := by
  unfold rowToMeasurement getField
  rw [lookup_map_key _ _ _ hk]
  by_cases hid : k = "id"
  · subst hid
    simp [decodedPairs_lookup row "id" hk, initialFieldValue_id]
  · have : (k == "id") = false := by simp [hid]
    simp [this, decodedPairs_lookup row k hk]

theorem getD_map_of_lt {α β : Type} (f : α → β) (dβ : β) (dα : α) :
    ∀ (l : List α) (i : Nat), i < l.length → (l.map f).getD i dβ = f (l.getD i dα) := by
  intro l
  induction l with
  | nil => intro i h; cases h
  | cons a t ih =>
    intro i h
    cases i with
    | zero => rfl
    | succ j => exact ih j (Nat.lt_of_succ_lt_succ h)

theorem measurementToRow_getD (r : CustomerMeasurement) (i : Nat)
    (hi : i < SHEET_FIELD_ORDER.length) :
    ((measurementToRow r).map some).getD i none =
      some ((getField r (SHEET_FIELD_ORDER.getD i "")).getD "") := by
  unfold measurementToRow
  rw [List.map_map]
  exact getD_map_of_lt _ none "" SHEET_FIELD_ORDER i hi

theorem schema_getD_keyIndex : ∀ k ∈ SHEET_FIELD_ORDER,
    SHEET_FIELD_ORDER.getD (keyIndex k) "" = k ∧
      keyIndex k < SHEET_FIELD_ORDER.length := by decide

/-! Section: Claim C3 -/

/-- Claim C3: for every record `r` (string-valued schema fields) and every row
position `n`, decoding the encoded row reproduces every `SHEET_FIELD_ORDER`
field of `r` exactly (an `undefined` field comes back as `''`), the resulting
`rowIndex` is exactly the externally supplied `n`, and `rowIndex` is never part
of the encoded row payload (it is not a schema key, and the encoder ignores the
`rowIndex` component of the record). -/
theorem claim3_roundTrip (r : CustomerMeasurement) (n : Nat) (k : String)
    (hk : k ∈ SHEET_FIELD_ORDER) :
    getField (rowToMeasurement ((measurementToRow r).map some) n) k =
        some (jsGet r k) ∧
      (rowToMeasurement ((measurementToRow r).map some) n).rowIndex = some n ∧
      "rowIndex" ∉ SHEET_FIELD_ORDER ∧
      (∀ o : Option Nat, measurementToRow ⟨r.fields, o⟩ = measurementToRow r) := by
  refine ⟨?_, rfl, by decide, fun o => rfl⟩
  rw [getField_rowToMeasurement _ n k hk]
  rcases schema_getD_keyIndex k hk with ⟨hgd, hlt⟩
  rw [measurementToRow_getD r (keyIndex k) hlt, hgd]
  rfl

theorem claim3_roundTrip_check :
    ("name" ∈ SHEET_FIELD_ORDER) ∧
      (getField
          (rowToMeasurement
            ((measurementToRow ⟨[("name", "Alice"), ("phone", "5551234")], some 4⟩).map some) 7)
          "name"
        = some (jsGet ⟨[("name", "Alice"), ("phone", "5551234")], some 4⟩ "name")) :=
  ⟨by decide,
   (claim3_roundTrip ⟨[("name", "Alice"), ("phone", "5551234")], some 4⟩ 7 "name"
      (by decide)).1⟩

/-! Section: Claim C9 -/

/-- Claim C9: the row codec is total.  Encoding always yields exactly 36
defined cells (`undefined` fields become `''`), and decoding any raw row of
any length yields a record in which every schema field is defined, with a
missing cell defaulting to its `initialMeasurementState` value and a missing
`id` cell defaulting to `''`. -/
theorem claim9_totality (r : CustomerMeasurement) (row : List (Option String))
    (n : Nat) (k : String) (hk : k ∈ SHEET_FIELD_ORDER) :
    (measurementToRow r).length = 36 ∧
      SHEET_FIELD_ORDER.length = 36 ∧
      (getField (rowToMeasurement row n) k).isSome = true ∧
      (row.getD (keyIndex k) none = none →
        getField (rowToMeasurement row n) k = some (initialFieldValue k)) ∧
      (row.getD 0 none = none →
        getField (rowToMeasurement row n) "id" = some "") := by
  refine ⟨?_, by decide, ?_, ?_, ?_⟩
  · unfold measurementToRow
    rw [List.length_map]
    rfl
  · rw [getField_rowToMeasurement row n k hk]
    rfl
  · intro hcell
    rw [getField_rowToMeasurement row n k hk, hcell]
    rfl
  · intro hcell
    have hid : ("id" : String) ∈ SHEET_FIELD_ORDER := by decide
    have hki : keyIndex "id" = 0 := by decide
    rw [getField_rowToMeasurement row n "id" hid, hki, hcell]
    rfl

theorem claim9_totality_check :
    ("unit" ∈ SHEET_FIELD_ORDER) ∧
      (measurementToRow ⟨[], none⟩).length = 36 ∧
      getField (rowToMeasurement [some "x17"] 2) "unit" = some "inch" :=
  ⟨by decide,
   (claim9_totality ⟨[], none⟩ [some "x17"] 2 "unit" (by decide)).1,
   by
     have h := (claim9_totality ⟨[], none⟩ [some "x17"] 2 "unit" (by decide)).2.2.2.1
     have hc : ([some "x17"] : List (Option String)).getD (keyIndex "unit") none = none := by
       decide
     simpa using h hc⟩

/-! Section: Claim C7 -/

theorem toDigitsCore_length_le (b : Nat) :
    ∀ (f n : Nat) (ds : List Char), ds.length ≤ (Nat.toDigitsCore b f n ds).length := by
  intro f
  induction f with
  | zero => intro n ds; exact Nat.le_refl _
  | succ f ih =>
    intro n ds
    unfold Nat.toDigitsCore
    by_cases h : n / b = 0
    · simp only [h, if_true]
      exact Nat.le_succ_of_le (Nat.le_refl _)
    · simp only [h, if_false]
      exact Nat.le_trans (Nat.le_succ_of_le (Nat.le_refl _))
        (ih (n / b) (Nat.digitChar (n % b) :: ds))

/-- The string `Date.now().toString()` is never empty. -/
theorem natRepr_ne_empty (n : Nat) : toString n ≠ "" := by
  intro h
  have hlen : (toString n).length = 0 := by rw [h]; rfl
  have h1 : 1 ≤ (Nat.toDigits 10 n).length := by
    unfold Nat.toDigits
    unfold Nat.toDigitsCore
    by_cases hd : n / 10 = 0
    · simp only [hd, if_true]
      exact Nat.succ_le_succ (Nat.zero_le _)
    · simp only [hd, if_false]
      exact toDigitsCore_length_le 10 n (n / 10) [Nat.digitChar (n % 10)]
  have h2 : (toString n).length = (Nat.toDigits 10 n).length := rfl
  rw [hlen] at h2
  rw [← h2] at h1
  cases h1

/-- Claim C7: saving with empty `id` and empty `measurementDate` yields a
timestamp-derived non-empty `id` and `measurementDate` equal to the current
ISO `YYYY-MM-DD` date (for a clock inside 2024-06-01 that is `'2024-06-01'`),
while non-empty values pass through unchanged. -/
theorem claim7_normalization (nowMs : Nat) (m : CustomerMeasurement)
    (hid : jsGet m "id" = "") (hdate : jsGet m "measurementDate" = "") :
    jsGet (normalizeForSave nowMs m) "id" = toString nowMs ∧
      toString nowMs ≠ "" ∧
      jsGet (normalizeForSave nowMs m) "measurementDate" = todayIso nowMs ∧
      todayIso 1717243200000 = "2024-06-01" ∧
      (∀ (n' : Nat) (m' : CustomerMeasurement), jsGet m' "id" ≠ "" →
        jsGet (normalizeForSave n' m') "id" = jsGet m' "id") ∧
      (∀ (n' : Nat) (m' : CustomerMeasurement), jsGet m' "measurementDate" ≠ "" →
        jsGet (normalizeForSave n' m') "measurementDate" = jsGet m' "measurementDate") := by
  have hsetOther : ∀ (mm : CustomerMeasurement) (v : String),
      jsGet (setField mm "measurementDate" v) "id" = jsGet mm "id" := by
    intro mm v
    unfold jsGet getField
    rw [lookup_setField_other mm "measurementDate" v "id" (by decide)]
  have hsetOther2 : ∀ (mm : CustomerMeasurement) (v : String),
      jsGet (setField mm "id" v) "measurementDate" = jsGet mm "measurementDate" := by
    intro mm v
    unfold jsGet getField
    rw [lookup_setField_other mm "id" v "measurementDate" (by decide)]
  refine ⟨?_, natRepr_ne_empty nowMs, ?_, by decide, ?_, ?_⟩
  · unfold normalizeForSave
    rw [if_pos (beq_iff_eq.mpr hdate)]
    rw [if_pos (beq_iff_eq.mpr ((hsetOther m (todayIso nowMs)).trans hid))]
    unfold jsGet getField
    rw [lookup_setField_self]
    rfl
  · unfold normalizeForSave
    rw [if_pos (beq_iff_eq.mpr hdate)]
    rw [if_pos (beq_iff_eq.mpr ((hsetOther m (todayIso nowMs)).trans hid))]
    rw [hsetOther2]
    unfold jsGet getField
    rw [lookup_setField_self]
    rfl
  · intro n' m' hne
    unfold normalizeForSave
    by_cases hd : jsGet m' "measurementDate" = ""
    · rw [if_pos (beq_iff_eq.mpr hd)]
      have hid' : jsGet (setField m' "measurementDate" (todayIso n')) "id" = jsGet m' "id" :=
        hsetOther m' (todayIso n')
      by_cases hi : jsGet (setField m' "measurementDate" (todayIso n')) "id" = ""
      · exact absurd (hid'.symm.trans hi) hne
      · rw [if_neg (fun hb => hi (beq_iff_eq.mp hb))]
        exact hid'
    · rw [if_neg (fun hb => hd (beq_iff_eq.mp hb))]
      rw [if_neg (fun hb => hne (beq_iff_eq.mp hb))]
  · intro n' m' hne
    unfold normalizeForSave
    rw [if_neg (fun hb => hne (beq_iff_eq.mp hb))]
    by_cases hi : jsGet m' "id" = ""
    · rw [if_pos (beq_iff_eq.mpr hi)]
      exact hsetOther2 m' (toString n')
    · rw [if_neg (fun hb => hi (beq_iff_eq.mp hb))]

theorem claim7_normalization_check :
    jsGet ⟨[("name", "A")], none⟩ "id" = "" ∧
      jsGet ⟨[("name", "A")], none⟩ "measurementDate" = "" ∧
      jsGet (normalizeForSave 1717243200000 ⟨[("name", "A")], none⟩) "measurementDate" =
        todayIso 1717243200000 := by
  refine ⟨by decide, by decide, ?_⟩
  exact (claim7_normalization 1717243200000 ⟨[("name", "A")], none⟩
    (by decide) (by decide)).2.2.1

/-! Section: Claim C5 -/

theorem jsLtNaN_iff (now : Nat) (o : Option Nat) :
    jsLtNaN now o = true ↔ ∃ e, o = some e ∧ now < e := by
  cases o with
  | none => simp [jsLtNaN]
  | some e => simp [jsLtNaN]

theorem restore_cond_parts {s : AppState}
    (h : (jsTruthy s.store.lsToken && jsTruthy s.store.lsExpiry
        && (s.store.lsSignedIn == some "true")) = true) :
    jsTruthy s.store.lsToken = true ∧ jsTruthy s.store.lsExpiry = true ∧
      s.store.lsSignedIn = some "true" := by
  simp only [Bool.and_eq_true] at h
  exact ⟨h.1.1, h.1.2, beq_iff_eq.mp h.2⟩

theorem restore_cond_of_parts {s : AppState}
    (h1 : jsTruthy s.store.lsToken = true) (h2 : jsTruthy s.store.lsExpiry = true)
    (h3 : s.store.lsSignedIn = some "true") :
    (jsTruthy s.store.lsToken && jsTruthy s.store.lsExpiry
        && (s.store.lsSignedIn == some "true")) = true := by
  simp only [Bool.and_eq_true]
  exact ⟨⟨h1, h2⟩, beq_iff_eq.mpr h3⟩

/-- Counterexample to claim C5 as stated: at startup time `now = 10` the state
`staleFalseState` holds a full persisted triple (`token`, expiry `"5"`,
signed-in flag `"false"`) that is expired (`¬ 10 < 5`), yet `restoreSession`
removes none of the three keys (the purge only runs for a triple whose flag is
exactly `'true'`), and the state stays signed out. -/
theorem claim5_counterexample :
    staleFalseState.store.lsToken = some "tok" ∧
      staleFalseState.store.lsExpiry = some "5" ∧
      staleFalseState.store.lsSignedIn = some "false" ∧
      parseLeadingNat "5" = some 5 ∧
      ¬(10 < 5) ∧
      (restoreSession 10 staleFalseState).store.lsToken = some "tok" ∧
      (restoreSession 10 staleFalseState).store.lsExpiry = some "5" ∧
      (restoreSession 10 staleFalseState).store.lsSignedIn = some "false" ∧
      (restoreSession 10 staleFalseState).isSignedIn = false := by decide

/-- Claim C5 (amended): on startup, the restore block transitions to signed-in
(adopting the stored token, with no interactive prompt — the block issues no
effect at all) iff the persisted triple is present (truthy token and expiry)
and marked signed-in (`'true'`) and `now < expiryTimestamp`; when the triple
is present *and marked signed-in* but fails `now < expiry`, all three keys are
removed and the state stays signed out; a triple not marked signed-in (or
incomplete) is left entirely untouched. -/
theorem claim5_restore (now : Nat) (s : AppState) (hstart : s.isSignedIn = false) :
    ((restoreSession now s).isSignedIn = true ↔
      (jsTruthy s.store.lsToken = true ∧ jsTruthy s.store.lsExpiry = true ∧
        s.store.lsSignedIn = some "true" ∧
        ∃ e, parseLeadingNat (s.store.lsExpiry.getD "") = some e ∧ now < e)) ∧
    ((jsTruthy s.store.lsToken = true ∧ jsTruthy s.store.lsExpiry = true ∧
        s.store.lsSignedIn = some "true" ∧
        ∃ e, parseLeadingNat (s.store.lsExpiry.getD "") = some e ∧ now < e) →
      restoreSession now s =
        { s with accessToken := s.store.lsToken, isSignedIn := true }) ∧
    ((jsTruthy s.store.lsToken = true ∧ jsTruthy s.store.lsExpiry = true ∧
        s.store.lsSignedIn = some "true" ∧
        ¬ ∃ e, parseLeadingNat (s.store.lsExpiry.getD "") = some e ∧ now < e) →
      restoreSession now s =
        { s with store :=
            { s.store with lsToken := none, lsExpiry := none, lsSignedIn := none } } ∧
        (restoreSession now s).isSignedIn = false) ∧
    ((¬ (jsTruthy s.store.lsToken = true ∧ jsTruthy s.store.lsExpiry = true ∧
        s.store.lsSignedIn = some "true")) → restoreSession now s = s) := by
  by_cases hcond : (jsTruthy s.store.lsToken && jsTruthy s.store.lsExpiry
      && (s.store.lsSignedIn == some "true")) = true
  · obtain ⟨h1, h2, h3⟩ := restore_cond_parts hcond
    by_cases hlt : jsLtNaN now (parseLeadingNat (s.store.lsExpiry.getD "")) = true
    · have hres : restoreSession now s =
          { s with accessToken := s.store.lsToken, isSignedIn := true } := by
        unfold restoreSession
        rw [if_pos hcond, if_pos hlt]
      refine ⟨?_, fun _ => hres, ?_, ?_⟩
      · rw [hres]
        exact ⟨fun _ => ⟨h1, h2, h3, (jsLtNaN_iff now _).mp hlt⟩, fun _ => rfl⟩
      · intro hpre
        exact absurd ((jsLtNaN_iff now _).mp hlt) hpre.2.2.2
      · intro hnc
        exact absurd ⟨h1, h2, h3⟩ hnc
    · have hres : restoreSession now s =
          { s with store :=
              { s.store with lsToken := none, lsExpiry := none, lsSignedIn := none } } := by
        unfold restoreSession
        rw [if_pos hcond, if_neg hlt]
      refine ⟨?_, ?_, ?_, ?_⟩
      · rw [hres]
        constructor
        · intro hT
          exact absurd (hstart.symm.trans hT) Bool.false_ne_true
        · intro hr
          exact absurd ((jsLtNaN_iff now _).mpr hr.2.2.2) hlt
      · intro hpre
        exact absurd ((jsLtNaN_iff now _).mpr hpre.2.2.2) hlt
      · intro _
        refine ⟨hres, ?_⟩
        rw [hres]
        exact hstart
      · intro hnc
        exact absurd ⟨h1, h2, h3⟩ hnc
  · have hres : restoreSession now s = s := by
      unfold restoreSession
      rw [if_neg hcond]
    refine ⟨?_, ?_, ?_, fun _ => hres⟩
    · rw [hres]
      constructor
      · intro hT
        exact absurd (hstart.symm.trans hT) Bool.false_ne_true
      · intro hr
        exact absurd (restore_cond_of_parts hr.1 hr.2.1 hr.2.2.1) hcond
    · intro hpre
      exact absurd (restore_cond_of_parts hpre.1 hpre.2.1 hpre.2.2.1) hcond
    · intro hpre
      exact absurd (restore_cond_of_parts hpre.1 hpre.2.1 hpre.2.2.1) hcond

theorem claim5_restore_check :
    (⟨[], false, none, none, none, false, false,
        ⟨none, false, false, some "tok", some "99", some "true"⟩⟩ : AppState).isSignedIn
        = false ∧
      restoreSession 10
          ⟨[], false, none, none, none, false, false,
            ⟨none, false, false, some "tok", some "99", some "true"⟩⟩
        = { (⟨[], false, none, none, none, false, false,
              ⟨none, false, false, some "tok", some "99", some "true"⟩⟩ : AppState) with
            accessToken := some "tok", isSignedIn := true } := by
  refine ⟨rfl, ?_⟩
  exact (claim5_restore 10
      ⟨[], false, none, none, none, false, false,
        ⟨none, false, false, some "tok", some "99", some "true"⟩⟩ rfl).2.1
    ⟨by decide, by decide, rfl, 99, by decide, by decide⟩

/-! Section: Claim C6 -/

/-- Claim C6: the displayed collection is the in-memory collection sorted by
`measurementDate` descending (on date values; the model's fixed shift
preserves the order), ties broken by ascending `rowIndex` when both records
carry a truthy, distinct one, else by ascending `id` string comparison; in
particular `A{2024-01-02, rowIndex 5}`, `B{2024-01-02, rowIndex 3}`,
`C{2024-01-03}` sort as `C, B, A`. -/
theorem claim6_sorting :
    sortedMeasurements [recordA, recordB, recordC] = [recordC, recordB, recordA] ∧
    (∀ a b dA dB, dateValue (getDateStr a) = some dA →
      dateValue (getDateStr b) = some dB → dA ≠ dB →
      (sortCompare a b < 0 ↔ dB < dA)) ∧
    (∀ a b dA ra rb, dateValue (getDateStr a) = some dA →
      dateValue (getDateStr b) = some dA →
      a.rowIndex = some ra → b.rowIndex = some rb → ra ≠ 0 → rb ≠ 0 → ra ≠ rb →
      (sortCompare a b < 0 ↔ ra < rb)) ∧
    (∀ a b dA, dateValue (getDateStr a) = some dA →
      dateValue (getDateStr b) = some dA →
      (a.rowIndex = none ∨ b.rowIndex = none) →
      (sortCompare a b < 0 ↔ jsGet a "id" < jsGet b "id")) := by
  refine ⟨by decide, ?_, ?_, ?_⟩
  · intro a b dA dB ha hb hne
    unfold sortCompare
    rw [ha, hb]
    have hneq : jsNeqNum (some dB) (some dA) = true := by
      simp [jsNeqNum, bne_iff_ne]
      exact fun h => hne h.symm
    rw [if_pos hneq]
    simp only [jsSubNum]
    exact sub_neg.trans Nat.cast_lt
  · intro a b dA ra rb ha hb hra hrb hra0 hrb0 hrarb
    unfold sortCompare
    rw [ha, hb]
    have hneq : jsNeqNum (some dA) (some dA) = false := by simp [jsNeqNum]
    rw [if_neg (by rw [hneq]; exact Bool.false_ne_true)]
    unfold tieBreakCompare
    rw [hra, hrb]
    have hcond : (jsTruthyNat (some ra) && jsTruthyNat (some rb)
        && ((some ra : Option Nat) != some rb)) = true := by
      simp [jsTruthyNat, bne_iff_ne, hra0, hrb0, hrarb]
    rw [if_pos hcond]
    simp only [Option.getD_some]
    by_cases hlt : ra < rb
    · rw [if_pos hlt]
      exact iff_of_true (by decide) hlt
    · rw [if_neg hlt]
      exact iff_of_false (by decide) hlt
  · intro a b dA ha hb hor
    unfold sortCompare
    rw [ha, hb]
    have hneq : jsNeqNum (some dA) (some dA) = false := by simp [jsNeqNum]
    rw [if_neg (by rw [hneq]; exact Bool.false_ne_true)]
    unfold tieBreakCompare
    have hcond : (jsTruthyNat a.rowIndex && jsTruthyNat b.rowIndex
        && (a.rowIndex != b.rowIndex)) = false := by
      rcases hor with h | h <;> rw [h] <;> simp [jsTruthyNat]
    rw [if_neg (by rw [hcond]; exact Bool.false_ne_true)]
    by_cases hlt : jsGet a "id" < jsGet b "id"
    · rw [if_pos hlt]
      exact iff_of_true (by decide) hlt
    · rw [if_neg hlt]
      exact iff_of_false (by decide) hlt

theorem claim6_sorting_check :
    (sortCompare recordC ⟨[("id", "D"), ("measurementDate", "2024-01-03")], some 4⟩ < 0 ↔
      jsGet recordC "id" <
        jsGet ⟨[("id", "D"), ("measurementDate", "2024-01-03")], some 4⟩ "id") :=
  claim6_sorting.2.2.2 recordC ⟨[("id", "D"), ("measurementDate", "2024-01-03")], some 4⟩
    ((dateValue (getDateStr recordC)).getD 0) (by decide) (by decide) (Or.inl rfl)

/-! Section: Claim C1 -/

/-- Counterexample to claim C1 as stated: against `badHeaderBackend` (whose
header row never matches the canonical schema and whose repairs report success
without sticking), the load recursion is still running after two and after
three read attempts — the read step is re-invoked more than once, so the
claimed initial-read-plus-at-most-one-retry budget is exceeded. -/
theorem claim1_counterexample :
    loadFromSheet badHeaderBackend 2 0 0 (some "tok") (some "sheetId")
        exampleSignedInState = none ∧
      loadFromSheet badHeaderBackend 3 0 0 (some "tok") (some "sheetId")
        exampleSignedInState = none := ⟨rfl, rfl⟩

/-- Claim C1 (amended): the header-mismatch self-healing re-invokes
`loadMeasurementsFromSheet` recursively with no retry bound: against a backend
whose header mismatches on every read, the load never completes — for every
amount of fuel (one unit per read attempt) and any read/setup response
offsets, the recursion is still running when the fuel runs out. -/
theorem claim1_unboundedRetry (fuel rIdx sIdx : Nat) :
    loadFromSheet badHeaderBackend fuel rIdx sIdx (some "tok") (some "sheetId")
      exampleSignedInState = none := by
  induction fuel generalizing rIdx sIdx with
  | zero => rfl
  | succ f ih =>
    have hstep : loadFromSheet badHeaderBackend (f + 1) rIdx sIdx (some "tok")
        (some "sheetId") exampleSignedInState
        = (match loadFromSheet badHeaderBackend f (rIdx + 1) (sIdx + 1) (some "tok")
              (some "sheetId") exampleSignedInState with
           | none => none
           | some ret => some (ret.1,
               Effect.readSheet ::
                 ([Effect.sheetMetaGet, Effect.writeHeaderRow] ++ ret.2))) := rfl
    rw [hstep, ih]

/-! Section: Shared facts about the load catch branch (claims C2 and C4) -/

theorem jsTruthy_some_of_ne {t : String} (h : t ≠ "") : jsTruthy (some t) = true :=
  bne_iff_ne.mpr h

theorem handleSignoutClick_fst (s : AppState) :
    (handleSignoutClick s).1 = handleSignoutLogic s := by
  unfold handleSignoutClick
  by_cases h : jsTruthy s.accessToken = true
  · rw [if_pos h]
  · rw [if_neg h]

theorem localLoad_session_clear (st : LocalStore) :
    localLoad { st with lsToken := none, lsExpiry := none, lsSignedIn := none }
      = localLoad st := by
  cases st
  rfl

theorem loadFromSheet_err_auth (b : Backend) (fuel rIdx sIdx : Nat)
    (tok sid : String) (s : AppState) (e : RemoteError)
    (htok : tok ≠ "") (hsid : sid ≠ "") (hg : s.gapiInited = true)
    (hread : b.reads rIdx = ReadResult.err e)
    (hbranch : isLoadAuthBranch e = true) :
    loadFromSheet b (fuel + 1) rIdx sIdx (some tok) (some sid) s
      = some ((handleSignoutClick s).1, Effect.readSheet :: (handleSignoutClick s).2) := by
  have hjt : jsTruthy (some tok) = true := jsTruthy_some_of_ne htok
  have hjs : jsTruthy (some sid) = true := jsTruthy_some_of_ne hsid
  unfold loadFromSheet
  rw [if_neg (by rw [hjt, hjs, hg]; simp)]
  split
  · next values heq =>
    rw [hread] at heq
    cases heq
  · next e' heq =>
    rw [hread] at heq
    injection heq with he
    subst he
    rw [if_pos hbranch]

/-! Section: Claim C4 -/

/-- Claim C4: a remote load failing with `401` / `403` / `UNAUTHENTICATED`
ends in a state where (a) the session is cleared — in-memory token and
signed-in flag reset, all three durable session keys removed — (b) the record
collection equals exactly what the local store adapter's load returns, and
(c) the pending continuation is `none`. -/
theorem claim4_authFailureFallback (b : Backend) (fuel : Nat) (tok sid : String)
    (s : AppState) (e : RemoteError)
    (htok : tok ≠ "") (hsid : sid ≠ "") (hg : s.gapiInited = true)
    (hread : b.reads 0 = ReadResult.err e)
    (hauth : e.code = some 401 ∨ e.code = some 403 ∨ e.status = some "UNAUTHENTICATED") :
    ((loadFromSheet b (fuel + 1) 0 0 (some tok) (some sid) s).map Prod.fst
        = some (handleSignoutLogic s)) ∧
      (handleSignoutLogic s).isSignedIn = false ∧
      (handleSignoutLogic s).accessToken = none ∧
      (handleSignoutLogic s).store.lsToken = none ∧
      (handleSignoutLogic s).store.lsExpiry = none ∧
      (handleSignoutLogic s).store.lsSignedIn = none ∧
      (handleSignoutLogic s).measurements = localLoad s.store ∧
      (handleSignoutLogic s).actionRequiresAuth = none := by
  have hbranch : isLoadAuthBranch e = true := by
    rcases hauth with h | h | h <;> simp [isLoadAuthBranch, h]
  have hload := loadFromSheet_err_auth b fuel 0 0 tok sid s e htok hsid hg hread hbranch
  refine ⟨?_, rfl, rfl, rfl, rfl, rfl, ?_, rfl⟩
  · rw [hload, Option.map_some', handleSignoutClick_fst]
  · exact localLoad_session_clear s.store

theorem claim4_check :
    (("tok" : String) ≠ "") ∧ (("sheetId" : String) ≠ "") ∧
      exampleSignedInState.gapiInited = true ∧
      authFailBackend.reads 0 = ReadResult.err authError401 ∧
      authError401.code = some 401 ∧
      ((loadFromSheet authFailBackend 1 0 0 (some "tok") (some "sheetId")
          exampleSignedInState).map Prod.fst
        = some (handleSignoutLogic exampleSignedInState)) :=
  ⟨by decide, by decide, rfl, rfl, rfl,
   (claim4_authFailureFallback authFailBackend 0 "tok" "sheetId"
      exampleSignedInState authError401 (by decide) (by decide) rfl rfl
      (Or.inl rfl)).1⟩

/-! Section: Claim C2 -/

/-- Counterexample to claim C2 as stated: a remote load failing with
`403` / `PERMISSION_DENIED` does *not* leave the session intact and does
*not* request a fresh token — the signed-in flag is cleared, the in-memory
and durable tokens are removed, and the emitted effect trace contains no
interactive token request. -/
theorem claim2_counterexample :
    permissionDeniedError.code = some 403 ∧
      permissionDeniedError.status = some "PERMISSION_DENIED" ∧
      exampleSignedInState.isSignedIn = true ∧
      exampleSignedInState.accessToken = some "tok" ∧
      (loadFromSheet permissionDeniedBackend 1 0 0 (some "tok") (some "sheetId")
          exampleSignedInState).map
          (fun r => (r.1.isSignedIn, r.1.accessToken, r.1.store.lsToken,
            r.2.contains Effect.tokenRequest))
        = some (false, none, none, false) := by decide

/-- Claim C2 (amended): a remote load failure whose status is
`PERMISSION_DENIED` is handled by the same branch as an authentication
failure: the controller forces sign-out (in-memory token and signed-in flag
cleared, durable session triple removed, pending continuation cleared,
collection reloaded from local storage) and issues no fresh interactive token
request during the load's error handling. -/
theorem claim2_permissionDeniedSignout (b : Backend) (fuel : Nat)
    (tok sid : String) (s : AppState) (e : RemoteError)
    (htok : tok ≠ "") (hsid : sid ≠ "") (hg : s.gapiInited = true)
    (hread : b.reads 0 = ReadResult.err e)
    (hpd : e.status = some "PERMISSION_DENIED") :
    ((loadFromSheet b (fuel + 1) 0 0 (some tok) (some sid) s).map Prod.fst
        = some (handleSignoutLogic s)) ∧
      ((loadFromSheet b (fuel + 1) 0 0 (some tok) (some sid) s).map
          (fun r => r.2.contains Effect.tokenRequest) = some false) ∧
      (handleSignoutLogic s).isSignedIn = false ∧
      (handleSignoutLogic s).accessToken = none ∧
      (handleSignoutLogic s).store.lsToken = none ∧
      (handleSignoutLogic s).store.lsExpiry = none ∧
      (handleSignoutLogic s).store.lsSignedIn = none ∧
      (handleSignoutLogic s).measurements = localLoad s.store ∧
      (handleSignoutLogic s).actionRequiresAuth = none := by
  have hbranch : isLoadAuthBranch e = true := by
    simp [isLoadAuthBranch, hpd]
  have hload := loadFromSheet_err_auth b fuel 0 0 tok sid s e htok hsid hg hread hbranch
  refine ⟨?_, ?_, rfl, rfl, rfl, rfl, rfl, ?_, rfl⟩
  · rw [hload, Option.map_some', handleSignoutClick_fst]
  · rw [hload, Option.map_some']
    unfold handleSignoutClick
    by_cases h : jsTruthy s.accessToken = true
    · rw [if_pos h]
      rfl
    · rw [if_neg h]
      rfl
  · exact localLoad_session_clear s.store

theorem claim2_check :
    (("tok" : String) ≠ "") ∧ (("sheetId" : String) ≠ "") ∧
      permissionDeniedBackend.reads 0 = ReadResult.err permissionDeniedError ∧
      permissionDeniedError.status = some "PERMISSION_DENIED" ∧
      ((loadFromSheet permissionDeniedBackend 1 0 0 (some "tok") (some "sheetId")
          exampleSignedInState).map (fun r => r.2.contains Effect.tokenRequest)
        = some false) :=
  ⟨by decide, by decide, rfl, rfl,
   (claim2_permissionDeniedSignout permissionDeniedBackend 0 "tok" "sheetId"
      exampleSignedInState permissionDeniedError (by decide) (by decide) rfl rfl
      rfl).2.1⟩

/-! Section: Claim C8 -/

/-- Claim C8: deleting a confirmed, present record that has no `rowIndex`,
while the remote backend is otherwise fully usable (signed in, truthy token,
GAPI initialized, spreadsheet known), issues no remote call at all (the
effect trace is empty): the record is removed by filtering the in-memory
collection by `id` and the filtered collection is persisted to local
storage. -/
theorem claim8_localDelete (b : Backend) (fuel : Nat) (idv : String)
    (s : AppState) (mDel : CustomerMeasurement)
    (hfind : s.measurements.find? (fun m => getField m "id" == some idv) = some mDel)
    (hri : mDel.rowIndex = none)
    (hsigned : s.isSignedIn = true) (htok : jsTruthy s.accessToken = true)
    (hgapi : s.gapiInited = true) (hsid : jsTruthy s.userSpreadsheetId = true)
    (hsave : s.store.saveFails = false) :
    handleDelete b fuel idv true s =
      some ({ s with
          store := { s.store with
            blob := some (s.measurements.filter
              (fun m => !(getField m "id" == some idv))) },
          measurements := s.measurements.filter
            (fun m => !(getField m "id" == some idv)) },
        []) := by
  unfold handleDelete
  split
  · next heq =>
    rw [hfind] at heq
    cases heq
  · next mDel' heq =>
    rw [hfind] at heq
    injection heq with hm
    subst hm
    rw [if_neg (by decide)]
    rw [if_pos (by rw [hsigned, htok, hgapi, hsid, hri]; rfl)]
    rw [if_neg (by rw [hsigned]; simp)]
    simp [localSave, hsave]

theorem claim8_localDelete_check :
    ((⟨[⟨[("id", "x1")], none⟩], true, some "tok", some "sheetId", none, true, true,
        ⟨none, false, false, none, none, none⟩⟩ : AppState).measurements.find?
        (fun m => getField m "id" == some "x1")
      = some ⟨[("id", "x1")], none⟩) ∧
      handleDelete badHeaderBackend 0 "x1" true
          ⟨[⟨[("id", "x1")], none⟩], true, some "tok", some "sheetId", none, true, true,
            ⟨none, false, false, none, none, none⟩⟩
        = some (⟨[], true, some "tok", some "sheetId", none, true, true,
            ⟨some [], false, false, none, none, none⟩⟩, []) := by
  refine ⟨by decide, ?_⟩
  have h := claim8_localDelete badHeaderBackend 0 "x1"
    ⟨[⟨[("id", "x1")], none⟩], true, some "tok", some "sheetId", none, true, true,
      ⟨none, false, false, none, none, none⟩⟩
    ⟨[("id", "x1")], none⟩ (by decide) rfl rfl (by decide) rfl (by decide) rfl
  rw [h]
  rfl

/-! Section: Claim C10 helper lemmas -/

theorem sameId_true_iff (x fM : CustomerMeasurement) :
    sameId x fM = true ↔ getField x "id" = getField fM "id" := by
  unfold sameId
  exact beq_iff_eq

theorem sameId_false_iff (x fM : CustomerMeasurement) :
    sameId x fM = false ↔ getField x "id" ≠ getField fM "id" := by
  unfold sameId
  exact beq_eq_false_iff_ne

theorem count_keep_zero (fM : CustomerMeasurement) :
    ∀ t : List CustomerMeasurement, (∀ x ∈ t, sameId x fM = false) →
      (t.map (fun m => if sameId m fM then fM else m)).count fM = 0 := by
  intro t
  induction t with
  | nil => intro _; rfl
  | cons x r ih =>
    intro h
    have hx : sameId x fM = false := h x (List.mem_cons_self x r)
    have hxne : x ≠ fM := fun hc =>
      (sameId_false_iff x fM).mp hx (by rw [hc])
    rw [List.map_cons, if_neg (by rw [hx]; exact Bool.false_ne_true)]
    rw [List.count_cons, ih (fun y hy => h y (List.mem_cons_of_mem x hy))]
    rw [if_neg (by rw [beq_eq_false_iff_ne.mpr hxne]; exact Bool.false_ne_true)]

theorem count_replace_one (fM : CustomerMeasurement) :
    ∀ l : List CustomerMeasurement,
      (l.map (fun m => getField m "id")).Nodup →
      (∃ x ∈ l, sameId x fM = true) →
      (l.map (fun m => if sameId m fM then fM else m)).count fM = 1 := by
  intro l
  induction l with
  | nil =>
    intro _ hex
    rcases hex with ⟨x, hx, _⟩
    cases hx
  | cons a r ih =>
    intro hnd hex
    rw [List.map_cons] at hnd
    have hnd2 := List.nodup_cons.mp hnd
    by_cases ha : sameId a fM = true
    · rw [List.map_cons, if_pos ha, List.count_cons]
      have hzero : (r.map (fun m => if sameId m fM then fM else m)).count fM = 0 := by
        apply count_keep_zero
        intro y hy
        have hya : getField y "id" ≠ getField a "id" := by
          intro hc
          exact hnd2.1 (hc ▸ List.mem_map_of_mem (fun m => getField m "id") hy)
        refine (sameId_false_iff y fM).mpr ?_
        rw [← (sameId_true_iff a fM).mp ha]
        exact hya
      rw [hzero, if_pos (beq_iff_eq.mpr rfl)]
    · have haf : a ≠ fM := fun hc => ha (by rw [hc]; exact beq_iff_eq.mpr rfl)
      rw [List.map_cons, if_neg ha, List.count_cons]
      have hex' : ∃ x ∈ r, sameId x fM = true := by
        rcases hex with ⟨x, hx, hxs⟩
        rcases List.mem_cons.mp hx with h1 | h1
        · exact absurd (show sameId a fM = true by rw [← h1]; exact hxs) ha
        · exact ⟨x, h1, hxs⟩
      rw [ih hnd2.2 hex']
      rw [if_neg (by rw [beq_eq_false_iff_ne.mpr haf]; exact Bool.false_ne_true)]

theorem mem_replace_of_ne (fM : CustomerMeasurement)
    (l : List CustomerMeasurement) (m : CustomerMeasurement)
    (hm : m ∈ l.map (fun x => if sameId x fM then fM else x))
    (hne : getField m "id" ≠ getField fM "id") : m ∈ l := by
  rcases List.mem_map.mp hm with ⟨x, hx, hxe⟩
  by_cases hs : sameId x fM = true
  · rw [if_pos hs] at hxe
    subst hxe
    exact absurd rfl hne
  · rw [if_neg hs] at hxe
    exact hxe ▸ hx

theorem mem_replace_of_mem (fM : CustomerMeasurement)
    (l : List CustomerMeasurement) (m : CustomerMeasurement) (hm : m ∈ l)
    (hne : getField m "id" ≠ getField fM "id") :
    m ∈ l.map (fun x => if sameId x fM then fM else x) := by
  have hkeep : (if sameId m fM then fM else m) = m := by
    rw [if_neg (fun hc : sameId m fM = true => hne ((sameId_true_iff m fM).mp hc))]
  exact hkeep ▸ List.mem_map_of_mem (fun x => if sameId x fM then fM else x) hm

theorem ids_replace_eq (fM : CustomerMeasurement) (l : List CustomerMeasurement) :
    (l.map (fun x => if sameId x fM then fM else x)).map (fun m => getField m "id")
      = l.map (fun m => getField m "id") := by
  rw [List.map_map]
  apply List.map_congr_left
  intro a _
  by_cases hs : sameId a fM = true
  · simp only [Function.comp_apply, if_pos hs]
    exact ((sameId_true_iff a fM).mp hs).symm
  · simp only [Function.comp_apply, if_neg hs]

/-! Section: Claim C10 -/

/-- Claim C10: the local save path preserves `id` uniqueness.  If all ids in
the collection are pairwise distinct, then after a local-path save they remain
pairwise distinct, the normalized record occurs exactly once, every other
record is preserved unchanged (both directions of membership), and the final
collection is a permutation (the path re-sorts by date) of the
replace-in-place / prepend update of the previous collection. -/
theorem claim10_localSaveUniqueness (b : Backend) (fuel nowMs : Nat)
    (mIn : CustomerMeasurement) (s : AppState)
    (hguard : (!s.isSignedIn || !(jsTruthy s.accessToken) || !s.gapiInited
        || !(jsTruthy s.userSpreadsheetId)) = true)
    (hnoauth : (!s.isSignedIn && s.tokenClientReady) = false)
    (hnodup : (s.measurements.map (fun m => getField m "id")).Nodup) :
    ∃ s' : AppState,
      handleSave b fuel nowMs mIn s = some (s', []) ∧
      (s'.measurements.map (fun m => getField m "id")).Nodup ∧
      s'.measurements.count (normalizeForSave nowMs mIn) = 1 ∧
      (∀ m ∈ s'.measurements,
        getField m "id" ≠ getField (normalizeForSave nowMs mIn) "id" →
          m ∈ s.measurements) ∧
      (∀ m ∈ s.measurements,
        getField m "id" ≠ getField (normalizeForSave nowMs mIn) "id" →
          m ∈ s'.measurements) ∧
      s'.measurements.Perm
        (if (s.measurements.findIdx?
            (fun m => sameId m (normalizeForSave nowMs mIn))).isSome then
          s.measurements.map (fun m =>
            if sameId m (normalizeForSave nowMs mIn) then normalizeForSave nowMs mIn
            else m)
        else normalizeForSave nowMs mIn :: s.measurements) := by
  unfold handleSave
  rw [if_pos hguard, if_neg (by rw [hnoauth]; exact Bool.false_ne_true)]
  set fM := normalizeForSave nowMs mIn with hfM
  set updated := (if (s.measurements.findIdx? (fun m => sameId m fM)).isSome then
      s.measurements.map (fun m => if sameId m fM then fM else m)
    else fM :: s.measurements) with hupd
  have hperm : (jsSortByDate updated).Perm updated :=
    List.perm_insertionSort _ updated
  refine ⟨_, rfl, ?_, ?_, ?_, ?_, hperm⟩
  · -- id-uniqueness is preserved
    refine ((hperm.map (fun m => getField m "id")).nodup_iff).mpr ?_
    rw [hupd]
    by_cases hex : (s.measurements.findIdx? (fun m => sameId m fM)).isSome = true
    · rw [if_pos hex, ids_replace_eq]
      exact hnodup
    · rw [if_neg hex, List.map_cons]
      have hnone : s.measurements.findIdx? (fun m => sameId m fM) = none := by
        cases hh : s.measurements.findIdx? (fun m => sameId m fM) with
        | none => rfl
        | some i => rw [hh] at hex; exact absurd rfl hex
      have hall := List.findIdx?_eq_none_iff.mp hnone
      refine List.nodup_cons.mpr ⟨?_, hnodup⟩
      intro hmem
      rcases List.mem_map.mp hmem with ⟨x, hx, hxe⟩
      exact absurd ((sameId_true_iff x fM).mpr hxe) (by rw [hall x hx]; simp)
  · -- the saved record occurs exactly once
    rw [hperm.count_eq fM, hupd]
    by_cases hex : (s.measurements.findIdx? (fun m => sameId m fM)).isSome = true
    · rw [if_pos hex]
      have hnotnone : ¬ s.measurements.findIdx? (fun m => sameId m fM) = none := by
        intro hh
        rw [hh] at hex
        cases hex
      have hexist : ∃ x ∈ s.measurements, sameId x fM = true := by
        by_contra hcon
        push_neg at hcon
        refine hnotnone (List.findIdx?_eq_none_iff.mpr ?_)
        intro x hx
        cases hb : sameId x fM with
        | false => rfl
        | true => exact absurd hb (hcon x hx)
      exact count_replace_one fM s.measurements hnodup hexist
    · rw [if_neg hex]
      have hnone : s.measurements.findIdx? (fun m => sameId m fM) = none := by
        cases hh : s.measurements.findIdx? (fun m => sameId m fM) with
        | none => rfl
        | some i => rw [hh] at hex; exact absurd rfl hex
      have hall := List.findIdx?_eq_none_iff.mp hnone
      rw [List.count_cons_self]
      have hzero : s.measurements.count fM = 0 := by
        refine List.count_eq_zero.mpr ?_
        intro hmem
        have := hall fM hmem
        rw [(sameId_true_iff fM fM).mpr rfl] at this
        cases this
      rw [hzero]
  · -- every record of the new collection with a different id was already there
    intro m hm hne
    have hm' : m ∈ updated := (hperm.mem_iff).mp hm
    rw [hupd] at hm'
    by_cases hex : (s.measurements.findIdx? (fun m => sameId m fM)).isSome = true
    · rw [if_pos hex] at hm'
      exact mem_replace_of_ne fM s.measurements m hm' hne
    · rw [if_neg hex] at hm'
      rcases List.mem_cons.mp hm' with h1 | h1
      · subst h1
        exact absurd rfl hne
      · exact h1
  · -- every old record with a different id is still there
    intro m hm hne
    refine (hperm.mem_iff).mpr ?_
    rw [hupd]
    by_cases hex : (s.measurements.findIdx? (fun m => sameId m fM)).isSome = true
    · rw [if_pos hex]
      exact mem_replace_of_mem fM s.measurements m hm hne
    · rw [if_neg hex]
      exact List.mem_cons_of_mem fM hm

theorem claim10_localSaveUniqueness_check :
    ((!(⟨[recordA], false, none, none, none, false, false,
          ⟨none, false, false, none, none, none⟩⟩ : AppState).isSignedIn
        || !(jsTruthy (⟨[recordA], false, none, none, none, false, false,
              ⟨none, false, false, none, none, none⟩⟩ : AppState).accessToken)
        || !(⟨[recordA], false, none, none, none, false, false,
              ⟨none, false, false, none, none, none⟩⟩ : AppState).gapiInited
        || !(jsTruthy (⟨[recordA], false, none, none, none, false, false,
              ⟨none, false, false, none, none, none⟩⟩ : AppState).userSpreadsheetId))
        = true) ∧
      ∃ s' : AppState,
        handleSave badHeaderBackend 0 1717243200000 recordB
            ⟨[recordA], false, none, none, none, false, false,
              ⟨none, false, false, none, none, none⟩⟩
          = some (s', []) ∧
        (s'.measurements.map (fun m => getField m "id")).Nodup ∧
        s'.measurements.count (normalizeForSave 1717243200000 recordB) = 1 := by
  refine ⟨by decide, ?_⟩
  obtain ⟨s', h1, h2, h3, _⟩ := claim10_localSaveUniqueness badHeaderBackend 0
    1717243200000 recordB
    ⟨[recordA], false, none, none, none, false, false,
      ⟨none, false, false, none, none, none⟩⟩
    (by decide) (by decide) (by decide)
  exact ⟨s', h1, h2, h3⟩

end TailorApp
